import Mathlib

set_option maxHeartbeats 1000000

/-!
Shallow embedding of the file-sync coordination logic of the
`dwidge/components-expo` repository, together with proofs about it.

The embedding covers:
* the pure data-URI helpers of `src/uri.ts` (`getMimeFromUri`,
  `getDataFromUri`, `getBufferFromUri`, `getBufferFromBase64`,
  `getBase64FromBuffer`, `getSizeFromUri`, `getDocFromUri`, `getUriFromDoc`),
  with Node's base64 codec modelled explicitly;
* `uploadFileDataUri` and `fetchFileDataUri` of `src/uploadFileDataUri.ts`,
  over an HTTP oracle;
* `compressImage` of `src/compressImage.ts`, over an image-manipulation
  oracle;
* the `useFileUri` coordinator of `src/file/useFileUri.ts`, as an explicit
  state machine driven by render / promise-settlement / `set()` events under
  single-threaded cooperative scheduling;
* the two local storage backends of `src/file/FilePreview.tsx`
  (`IndexedDBStorage`, `ExpoFileStorage`), over explicit store states.

Bytes are modelled as `Nat` values (with explicit `< 256` bounds where they
matter); external collaborators (SHA-256 digest, HTTP, the image
manipulator, the remote record setter) are parameters of the model.
-/

/-! ## JavaScript string primitives used by `src/uri.ts` -/

/-- JS `String.prototype.indexOf` restricted to a single character, as used
in `uri.ts`: 0-based index of the first occurrence, `-1` if absent. -/
def jsIndexOfAux : List Char → Char → Int → Int
  | [], _, _ => -1
  | a :: rest, c, i => if a = c then i else jsIndexOfAux rest c (i + 1)

/-- JS `str.indexOf(char)`. -/
def jsIndexOf (s : String) (c : Char) : Int :=
  jsIndexOfAux s.toList c 0

/-- JS `String.prototype.startsWith`, via the character list (so that it
evaluates inside the kernel). -/
def jsStartsWith (s pre : String) : Bool :=
  pre.toList.isPrefixOf s.toList

/-- JS `String.prototype.substring`: both arguments are clamped to
`[0, length]` and swapped when `start > stop`. -/
def jsSubstring (s : String) (start stop : Int) : String :=
  let cs := s.toList
  let len : Int := cs.length
  let a := (max 0 (min start len)).toNat
  let b := (max 0 (min stop len)).toNat
  let lo := min a b
  let hi := max a b
  String.mk ((cs.drop lo).take (hi - lo))

/-! ## Node base64 codec (`Buffer.from(_, "base64")` / `buf.toString("base64")`)

`src/uri.ts` delegates base64 to Node's `Buffer`; the codec is modelled here
explicitly so that the round-trip property is provable. -/

/-- The standard base64 alphabet used by Node's `Buffer`. -/
def b64Alphabet : List Char :=
  "ABCDEFGHIJKLMNOPQRSTUVWXYZabcdefghijklmnopqrstuvwxyz0123456789+/".toList

/-- Character for a sextet value. -/
def b64char (s : Nat) : Char := b64Alphabet.getD s 'A'

/-- Sextet value of a base64 character. -/
def b64val (c : Char) : Nat := b64Alphabet.indexOf c

/-- Base64 encoding of a byte list (bytes as `Nat`), with `=` padding, as
produced by Node's `buf.toString("base64")`. -/
def encodeB64 : List Nat → List Char
  | [] => []
  | [a] => [b64char (a / 4), b64char (a % 4 * 16), '=', '=']
  | [a, b] => [b64char (a / 4), b64char (a % 4 * 16 + b / 16), b64char (b % 16 * 4), '=']
  | a :: b :: c :: rest =>
      b64char (a / 4) :: b64char (a % 4 * 16 + b / 16) ::
        b64char (b % 16 * 4 + c / 64) :: b64char (c % 64) :: encodeB64 rest

/-- Base64 decoding of a character list, as performed by Node's
`Buffer.from(s, "base64")` on well-formed input: groups of four characters,
`=` padding ending the data, a short unpadded tail decoded like Node does. -/
def decodeB64 : List Char → List Nat
  | c1 :: c2 :: c3 :: c4 :: rest =>
      let v1 := b64val c1
      let v2 := b64val c2
      if c3 = '=' then [v1 * 4 + v2 / 16]
      else
        let v3 := b64val c3
        if c4 = '=' then [v1 * 4 + v2 / 16, v2 % 16 * 16 + v3 / 4]
        else (v1 * 4 + v2 / 16) :: (v2 % 16 * 16 + v3 / 4) ::
               (v3 % 4 * 64 + b64val c4) :: decodeB64 rest
  | [c1, c2] => [b64val c1 * 4 + b64val c2 / 16]
  | [c1, c2, c3] =>
      if c3 = '=' then [b64val c1 * 4 + b64val c2 / 16]
      else [b64val c1 * 4 + b64val c2 / 16, b64val c2 % 16 * 16 + b64val c3 / 4]
  | _ => []

/-! ## `src/uri.ts` -/

/-- `uri.ts` line 9: `uri.substring(uri.indexOf(":") + 1, uri.indexOf(";"))`. -/
def getMimeFromUri (uri : String) : String :=
  jsSubstring uri (jsIndexOf uri ':' + 1) (jsIndexOf uri ';')

/-- `uri.ts` line 12: `uri.substring(uri.indexOf(",") + 1)`. -/
def getDataFromUri (uri : String) : String :=
  jsSubstring uri (jsIndexOf uri ',' + 1) uri.toList.length

/-- `uri.ts` line 24: `Buffer.from(base64, "base64")`. -/
def getBufferFromBase64 (base64 : String) : List Nat :=
  decodeB64 base64.toList

/-- `uri.ts` line 35: `data.toString("base64")`. -/
def getBase64FromBuffer (data : List Nat) : String :=
  String.mk (encodeB64 data)

/-- `uri.ts` line 21: decode the payload of a data URI. -/
def getBufferFromUri (uri : String) : List Nat :=
  getBufferFromBase64 (getDataFromUri uri)

/-- `uri.ts` line 15: byte length of the decoded payload. -/
def getSizeFromUri (uri : String) : Nat :=
  (getBufferFromUri uri).length

/-- `uri.ts` line 18, with the external SHA-256 digest (`expo-crypto`)
abstracted as the function `h`. -/
def getSha256HexFromUri (h : List Nat → String) (uri : String) : String :=
  h (getBufferFromUri uri)

/-- `uri.ts` line 48: rebuild a data URI from mime and base64 payload. -/
def getUriFromDoc (mime data : String) : String :=
  "data:" ++ mime ++ ";base64," ++ data

/-- The zod `Doc` object of `uri.ts` lines 51-56. -/
structure Doc where
  data : String
  size : Nat
  mime : String
  sha256 : String
deriving DecidableEq

/-- `uri.ts` lines 38-46: `getDocFromUri`, with the zod parse made explicit:
`data` and `sha256` must be nonempty (`z.string().min(1)`); a parse failure
is the promise rejection of the original. The SHA-256 digest is the
parameter `h`. -/
def getDocFromUri (h : List Nat → String) (uri : String) : Except String Doc :=
  let mime := getMimeFromUri uri
  let data := getDataFromUri uri
  let buffer := getBufferFromUri uri
  let size := buffer.length
  let sha256 := h buffer
  if 1 ≤ data.length ∧ 1 ≤ sha256.length then
    Except.ok { data := data, size := size, mime := mime, sha256 := sha256 }
  else Except.error "ZodParseError"

/-! ## HTTP model for `src/uploadFileDataUri.ts` -/

deriving instance DecidableEq for Except

/-- An axios failure: either an error carrying a response status
(`isAxiosError(e) && e.response`), or any other failure (network error,
no response, non-axios throw). -/
inductive HttpErr where
  | status : Nat → HttpErr
  | network : HttpErr
deriving DecidableEq

/-- The HTTP collaborators used by the upload path: `axios.put` (url, body
bytes, content-type header) and `axios.get` with
`responseType: "arraybuffer"` (body bytes plus the `content-type` response
header, `""` when absent). The two functions are oracles fixing each
request's outcome; the model is single-threaded so a request's outcome
depends only on its arguments. -/
structure HttpWorld where
  put : String → List Nat → String → Except HttpErr Unit
  get : String → Except HttpErr (List Nat × String)

/-- `if (putBuffer) assert.ok(putBuffer.equals(buffer), "fetchFileDataUriE2")`
(`uploadFileDataUri.ts` line 81): holds when no `putBuffer` was supplied or
it equals the response body. -/
def putBufferMatches : Option (List Nat) → List Nat → Bool
  | some pb, body => pb == body
  | none, _ => true

/-- `uploadFileDataUri.ts` lines 69-101: `fetchFileDataUri`. On a response
with HTTP status 404 the promise resolves with `null`; any other failure
rejects with a wrapped `ContextError` (modelled as `Except.error` with a
label). The `Buffer.from(response.data)` truthiness check
(`fetchFileDataUriE1`) can never fail (a Buffer object is always truthy)
and is omitted. An absent or empty `content-type` header falls back to
`application/octet-stream`. -/
def fetchFileDataUri (w : HttpWorld) (getUrl : String) (putBuffer : Option (List Nat)) :
    Except String (Option String) :=
  match w.get getUrl with
  | Except.error e =>
    match e with
    | HttpErr.status 404 => Except.ok none
    | _ => Except.error "fetchFileDataUriE"
  | Except.ok (body, ctHeader) =>
    if putBufferMatches putBuffer body then
      let mime := if ctHeader = "" then "application/octet-stream" else ctHeader
      let data := getBase64FromBuffer body
      if getBufferFromBase64 data = body then Except.ok (some (getUriFromDoc mime data))
      else Except.error "fetchFileDataUriE3"
    else Except.error "fetchFileDataUriE2"

/-- `uploadFileDataUri.ts` lines 18-67: `uploadFileDataUri`. Each
`assert.strictEqual(a, b, label)` continues exactly when `a = b` and
otherwise throws `label`; every failure is re-thrown wrapped in a
`ContextError "uploadFileDataUriE"` (the wrapping only changes the error
payload, modelled here by keeping a label). The SHA-256 digest is the
parameter `h`, the HTTP collaborators the oracle `w`. -/
def uploadFileDataUri (h : List Nat → String) (w : HttpWorld)
    (putUrl uri : String) (size : Nat) (mime hash getUrl : String) : Except String Unit :=
  let putBuffer := getBufferFromUri uri
  if putBuffer.length = size then
    if getMimeFromUri uri = mime then
      if h putBuffer = hash then
        match w.put putUrl putBuffer (getMimeFromUri uri) with
        | Except.error _ => Except.error "uploadFileDataUriE"
        | Except.ok _ =>
          match fetchFileDataUri w getUrl (some putBuffer) with
          | Except.error e => Except.error e
          | Except.ok none => Except.error "uploadFileDataUriE7"
          | Except.ok (some getUri) =>
            let getBuffer := getBufferFromUri getUri
            if getBuffer.length = size then
              if getMimeFromUri getUri = mime then
                if h getBuffer = hash then Except.ok ()
                else Except.error "uploadFileDataUriE6"
              else Except.error "uploadFileDataUriE5"
            else Except.error "uploadFileDataUriE4"
      else Except.error "uploadFileDataUriE3"
    else Except.error "uploadFileDataUriE2"
  else Except.error "uploadFileDataUriE1"

/-! ## `src/compressImage.ts` -/

/-- Oracle for the external image/file platform calls:
`ImageManipulator.manipulateAsync(uri, [], {compress: 1})` yields the
original dimensions (`width`, `height`); `manipulateAsync(uri, [{resize}],
{compress: 0.7, format: JPEG})` yields the resized re-encoded file, whose
uri is `resized uri`; `readFileAsDataUri` models the
fetch-blob-FileReader pipeline of `convertFilePathToDataUri`. -/
structure ImageOps where
  width : String → Nat
  height : String → Nat
  resized : String → String
  readFileAsDataUri : String → String

/-- `compressImage.ts` lines 106-129: resize/re-encode when a configured
dimension bound is nonzero (truthy) and exceeded; otherwise return the
original uri. The caller in `useFileUri` uses the default
`resize = { width: 800 }`, i.e. `rw = some 800`, `rh = none`. -/
def compressImage (ops : ImageOps) (uri : String) (rw rh : Option Nat) : String :=
  let ow := ops.width uri
  let oh := ops.height uri
  let needsW := match rw with
    | some w => decide (0 < w) && decide (w < ow)
    | none => false
  let needsH := match rh with
    | some hv => decide (0 < hv) && decide (hv < oh)
    | none => false
  if needsW || needsH then ops.resized uri else uri

/-- `useFileUri.ts` lines 114-125: `convertFilePathToDataUri` returns
non-`file:` uris unchanged and reads `file:` paths into a data URI via the
platform (oracle `ops.readFileAsDataUri`). -/
def convertFilePathToDataUri (ops : ImageOps) (filePath : String) : String :=
  if jsStartsWith filePath "file:" then ops.readFileAsDataUri filePath else filePath

/-! ## The `useFileUri` coordinator (`src/file/useFileUri.ts`)

The hook state is modelled explicitly. JS three-valued nullable fields
(`undefined` / `null` / value) are the type `Tri`; two-valued nullable
fields (`null` / value) are `Option`. -/

/-- JS `undefined` / `null` / present value. -/
inductive Tri (α : Type) where
  | undef : Tri α
  | null : Tri α
  | val : α → Tri α
deriving DecidableEq

/-- JS loose `x != null`: false for both `undefined` and `null`. -/
def Tri.looseNonNull {α : Type} : Tri α → Bool
  | Tri.val _ => true
  | _ => false

/-- `x === undefined`. -/
def Tri.isUndef {α : Type} : Tri α → Bool
  | Tri.undef => true
  | _ => false

/-- Value of a present `Tri`, with a default for the absent cases. -/
def Tri.getD {α : Type} : Tri α → α → α
  | Tri.val a, _ => a
  | _, d => d

/-- The remote `file` record (`UseFile2` value): metadata fields are
nullable, the two signed URLs can each be absent (`undefined`), `null`, or
present. -/
structure FileRecord where
  id : String
  size : Option Nat
  mime : Option String
  sha256 : Option String
  getUrl : Tri String
  putUrl : Tri String
deriving DecidableEq

/-- The object stored in the hook's `localMeta` state (`useFileUri.ts`
lines 20-30). `uri` is `string | null`. The spread `{...file, uri}` in the
resolve path also copies the record's URLs; they are never read back from
`localMeta` and are not carried here. -/
structure LocalMetaObj where
  id : Option String
  size : Option Nat
  mime : Option String
  sha256 : Option String
  uri : Option String
deriving DecidableEq

/-- The coordinator's own React state: `localMeta` (initially `undefined`),
`uploaded` (initially `true`), `isUploading` (initially `false`). -/
structure CoordState where
  localMeta : Tri LocalMetaObj
  uploaded : Bool
  isUploading : Bool
deriving DecidableEq

/-- JS `localMeta?.uri`: `undefined` when `localMeta` is `undefined` or
`null`, otherwise the (two-valued) `uri` field. -/
def metaUri : Tri LocalMetaObj → Tri String
  | Tri.val m =>
    match m.uri with
    | some s => Tri.val s
    | none => Tri.null
  | _ => Tri.undef

/-- JS truthiness of a `string | null | undefined` value: a nonempty
string. -/
def triTruthy : Tri String → Bool
  | Tri.val s => !(s == "")
  | _ => false

/-- JS truthiness `!!uri` of a `string | null` value. -/
def optTruthy : Option String → Bool
  | some s => !(s == "")
  | none => false

/-- An upload started by the effect: the arguments of the pending
`uploadFileDataUri(putUrl, localMeta.uri, size, mime, sha256, getUrl)`
promise. -/
structure UploadReq where
  putUrl : String
  uri : String
  size : Nat
  mime : String
  hash : String
  getUrl : String
deriving DecidableEq

/-- A resolve fetch started by the effect: the pending
`fetchFileDataUri(getUrl)` promise together with the `file` record captured
by the `.then` closure. -/
structure FetchReq where
  getUrl : String
  fileSnap : FileRecord
deriving DecidableEq

/-- The argument object of a `setFile({id, mime, sha256, size})` call. -/
structure SetPayload where
  id : String
  mime : Option String
  sha256 : Option String
  size : Option Nat
deriving DecidableEq

/-- Whole-system state: the hook state, the externally owned `file` record
(`none` = `undefined`), the in-flight upload and fetch promises (FIFO), and
the argument of the most recent `setFile` call (bookkeeping). -/
structure SysState where
  coord : CoordState
  file : Option FileRecord
  pendingUploads : List UploadReq
  pendingFetches : List FetchReq
  lastSetPayload : Option SetPayload
deriving DecidableEq

/-- Environment: HTTP oracle, SHA-256 digest, image/platform oracle, and
the remote collaborator's response to a `setFile` call (how the record
looks after the partial update lands, e.g. with a freshly minted
`putUrl`). -/
structure SyncEnv where
  world : HttpWorld
  sha256Hex : List Nat → String
  img : ImageOps
  remoteApply : FileRecord → SetPayload → FileRecord

/-- The outer gate of the upload branch (`useFileUri.ts` line 35):
`localMeta?.uri && file && !uploaded && !isUploading`. -/
def uploadGuard (st : SysState) : Bool :=
  triTruthy (metaUri st.coord.localMeta) && st.file.isSome &&
    !st.coord.uploaded && !st.coord.isUploading

/-- The inner condition of the upload branch (`useFileUri.ts` lines 37-44):
`putUrl != null && mime != null && size != null && sha256 != null &&
getUrl != null && mime === getMimeFromUri(localMeta?.uri) &&
size === getSizeFromUri(localMeta?.uri)`. -/
def uploadInnerCond (f : FileRecord) (u : String) : Bool :=
  f.putUrl.looseNonNull && f.mime.isSome && f.size.isSome && f.sha256.isSome &&
    f.getUrl.looseNonNull && (f.mime == some (getMimeFromUri u)) &&
    (f.size == some (getSizeFromUri u))

/-- The upload branch action (`useFileUri.ts` lines 36-59): when
`uploadInnerCond` holds, set `isUploading` and start the
`uploadFileDataUri(putUrl, localMeta?.uri, size, mime, sha256, getUrl)`
promise (the `getD` defaults are never used: the condition guarantees the
fields are present). -/
def startUpload (st : SysState) : SysState :=
  match st.file, metaUri st.coord.localMeta with
  | some f, Tri.val u =>
    if uploadInnerCond f u then
      { st with
        coord := { st.coord with isUploading := true }
        pendingUploads := st.pendingUploads ++
          [{ putUrl := f.putUrl.getD "", uri := u, size := f.size.getD 0,
             mime := f.mime.getD "", hash := f.sha256.getD "", getUrl := f.getUrl.getD "" }] }
    else st
  | _, _ => st

/-- The resolve branch's body (`useFileUri.ts` lines 62-71): with
`getUrl != null && mime != null` start the `fetchFileDataUri` promise,
otherwise `setLocalMeta(null); setUploaded(false)`. -/
def startFetch (st : SysState) : SysState :=
  match st.file with
  | some f =>
    match f.getUrl, f.mime with
    | Tri.val gu, some _ =>
      { st with pendingFetches := st.pendingFetches ++ [⟨gu, f⟩] }
    | _, _ =>
      { st with coord := { st.coord with localMeta := Tri.null, uploaded := false } }
  | none => st

/-- The resolve branch of the effect (`useFileUri.ts` lines 61-72), guarded
by `localMeta?.uri === undefined && file && uploaded`. -/
def renderResolve (st : SysState) : SysState :=
  if (metaUri st.coord.localMeta).isUndef && st.file.isSome && st.coord.uploaded then
    startFetch st
  else st

/-- One run of the effect body (`useFileUri.ts` lines 34-73): the upload
branch, then the resolve branch. -/
def renderStep (st : SysState) : SysState :=
  renderResolve (if uploadGuard st then startUpload st else st)

/-- Settlement of the oldest pending upload promise. On fulfilment the
`.then` handler (`useFileUri.ts` lines 55-58) runs `setUploaded(true);
setIsUploading(false)`. The chain has no rejection handler, so on rejection
no state is touched at all. -/
def settleUploadStep (env : SyncEnv) (st : SysState) : SysState :=
  match st.pendingUploads with
  | [] => st
  | req :: rest =>
    match uploadFileDataUri env.sha256Hex env.world req.putUrl req.uri req.size req.mime
        req.hash req.getUrl with
    | Except.ok _ =>
      { st with
        pendingUploads := rest
        coord := { st.coord with uploaded := true, isUploading := false } }
    | Except.error _ => { st with pendingUploads := rest }

/-- Settlement of the oldest pending resolve fetch. On fulfilment the
`.then` handler (`useFileUri.ts` lines 64-67) runs
`setLocalMeta({...file, uri}); setUploaded(!!uri)`; the chain has no
rejection handler, so on rejection no state is touched. -/
def settleFetchStep (env : SyncEnv) (st : SysState) : SysState :=
  match st.pendingFetches with
  | [] => st
  | req :: rest =>
    match fetchFileDataUri env.world req.getUrl none with
    | Except.ok uri =>
      { st with
        pendingFetches := rest
        coord := { st.coord with
          localMeta := Tri.val
            { id := some req.fileSnap.id, size := req.fileSnap.size,
              mime := req.fileSnap.mime, sha256 := req.fileSnap.sha256, uri := uri }
          uploaded := optTruthy uri } }
    | Except.error _ => { st with pendingFetches := rest }

/-- Completion of a `setUri(uri, mime)` call (`useFileUri.ts` lines
75-105). The setter only exists when `file` (and `setFile`) are present.
For `uri = null`: clear `localMeta`, mark synced, null the remote metadata.
Otherwise: compress images, convert to a data URI, compute the `Doc`
(whose zod parse failure rejects the call before any state update), store
the meta locally, mark not uploaded, and push the metadata to the remote
record, which responds per `env.remoteApply`. -/
def setCallStep (env : SyncEnv) (st : SysState) (uri : Option String) (mime : String) :
    SysState :=
  match st.file with
  | none => st
  | some f =>
    match uri with
    | none =>
      let payload : SetPayload := { id := f.id, mime := none, sha256 := none, size := none }
      { st with
        coord := { localMeta := Tri.null, uploaded := true, isUploading := false }
        file := some (env.remoteApply f payload)
        lastSetPayload := some payload }
    | some u =>
      let isImage := jsStartsWith mime "image/"
      let compressedUri := if isImage then compressImage env.img u (some 800) none else u
      let dataUri := convertFilePathToDataUri env.img compressedUri
      match getDocFromUri env.sha256Hex dataUri with
      | Except.error _ => st
      | Except.ok doc =>
        let payload : SetPayload :=
          { id := f.id, mime := some mime, sha256 := some doc.sha256, size := some doc.size }
        let newMeta : LocalMetaObj :=
          { id := some f.id, size := some doc.size, mime := some mime,
            sha256 := some doc.sha256, uri := some dataUri }
        { st with
          coord := { localMeta := Tri.val newMeta, uploaded := false, isUploading := false }
          file := some (env.remoteApply f payload)
          lastSetPayload := some payload }

/-- Events of the cooperative single-threaded schedule: an effect run, the
settlement of the oldest pending upload or fetch promise, the completion of
a `setUri` call, and an external refresh of the remote record. -/
inductive Ev where
  | render : Ev
  | settleUpload : Ev
  | settleFetch : Ev
  | setCall : Option String → String → Ev
  | remoteUpdate : Option FileRecord → Ev
deriving DecidableEq

/-- Apply one event. -/
def applyEv (env : SyncEnv) (st : SysState) : Ev → SysState
  | Ev.render => renderStep st
  | Ev.settleUpload => settleUploadStep env st
  | Ev.settleFetch => settleFetchStep env st
  | Ev.setCall u m => setCallStep env st u m
  | Ev.remoteUpdate f => { st with file := f }

/-- Run a sequence of events. -/
def runEvents (env : SyncEnv) (st : SysState) (evs : List Ev) : SysState :=
  evs.foldl (applyEv env) st

/-- The first component of the hook's return value (`useFileUri.ts` lines
107-111): `file?.getUrl === null ? null : localMeta?.uri`. -/
def returnedUri (file : Option FileRecord) (lm : Tri LocalMetaObj) : Tri String :=
  match file with
  | some f =>
    match f.getUrl with
    | Tri.null => Tri.null
    | _ => metaUri lm
  | none => metaUri lm

/-! ## Spec-side definitions (for refinement comparisons only) -/

/-- Modelled from the spec's words for claim C5 (not from the source): an
upload is initiated exactly when local content exists, the state is
unsynced, no upload is in flight, and the remote record has a non-null
`putUrl` together with `mime`, `size` and `sha256` that all match the
locally stored blob (the sha256 matching the blob's actual digest under
`h`). -/
def specUploadCondC5 (h : List Nat → String) (st : SysState) : Bool :=
  triTruthy (metaUri st.coord.localMeta) && !st.coord.uploaded && !st.coord.isUploading &&
    match st.file, metaUri st.coord.localMeta with
    | some f, Tri.val u =>
      f.putUrl.looseNonNull &&
        (f.mime == some (getMimeFromUri u)) && (f.size == some (getSizeFromUri u)) &&
        (f.sha256 == some (getSha256HexFromUri h u))
    | _, _ => false

/-! ## Trace predicates for the serialization claim -/

/-- At most one upload promise is in flight, and while one is in flight the
`isUploading` flag is set. -/
def uploadsInFlightInv (st : SysState) : Prop :=
  st.pendingUploads.length ≤ 1 ∧ (st.pendingUploads = [] ∨ st.coord.isUploading = true)

/-- Along the trace, every `setCall` event happens only while no upload
promise is in flight. -/
def noSetDuringUpload (env : SyncEnv) : SysState → List Ev → Prop
  | _, [] => True
  | st, ev :: rest =>
    (match ev with
      | Ev.setCall _ _ => st.pendingUploads = []
      | _ => True) ∧
      noSetDuringUpload env (applyEv env st ev) rest

/-- Events that are neither a `setUri` call nor a resolve-fetch
settlement. -/
def stableEv : Ev → Prop
  | Ev.setCall _ _ => False
  | Ev.settleFetch => False
  | _ => True

/-- The `setUri` call with these arguments completes without rejection
(the zod parse of the computed `Doc` succeeds; `set(null)` always
completes). -/
def setSucceeds (env : SyncEnv) (uri : Option String) (mime : String) : Prop :=
  match uri with
  | none => True
  | some u =>
    ∃ d, getDocFromUri env.sha256Hex
        (convertFilePathToDataUri env.img
          (if jsStartsWith mime "image/" then compressImage env.img u (some 800) none else u)) =
      Except.ok d

/-! ## Local storage backends (`src/file/FilePreview.tsx`) -/

/-- `IndexedDBStorage.getUri` (lines 224-273): `store.get(id)` on the
object store (modelled as an association list), with the
`resolve(result || null)` coalescing (an absent key yields `undefined`, a
falsy stored value yields `null`). -/
def idbGetUri (store : List (String × String)) (id : String) : Option String :=
  match store.lookup id with
  | some v => if v = "" then none else some v
  | none => none

/-- `IndexedDBStorage.deleteUri` (lines 328-372): `store.delete(id)`
succeeds whether or not the key exists. -/
def idbDeleteUri (store : List (String × String)) (id : String) : List (String × String) :=
  store.filter (fun p => p.1 != id)

/-- `IndexedDBStorage.setUri`'s `store.put(uri, id)` upsert (lines
275-326). -/
def idbPutUri (store : List (String × String)) (id v : String) : List (String × String) :=
  idbDeleteUri store id ++ [(id, v)]

/-- `IndexedDBStorage.setUri`: `null` deletes, otherwise put. -/
def idbSetUri (store : List (String × String)) (id : String) (uri : Option String) :
    List (String × String) × Option String :=
  match uri with
  | none => (idbDeleteUri store id, none)
  | some u => (idbPutUri store id u, some u)

/-- `ExpoFileStorage.getUri` (lines 439-454): `getInfoAsync` existence
check on the file at `basePath + id` (the filesystem modelled as the list
of existing paths); a missing file yields `null`, otherwise the file uri
itself is returned (`asDataUri(fileUri)`). -/
def expoGetUri (fs : List String) (basePath id : String) : Option String :=
  if fs.contains (basePath ++ id) then some (basePath ++ id) else none

/-- `ExpoFileStorage.deleteUri` (lines 475-484):
`deleteAsync(fileUri, { idempotent: true })` removes the file when present
and succeeds either way. -/
def expoDeleteUri (fs : List String) (basePath id : String) : List String :=
  fs.filter (fun p => p != basePath ++ id)

/-- `ExpoFileStorage.setUri`'s write path (lines 456-473): directory
auto-created, then `copyAsync` creates or overwrites the file. -/
def expoSetUri (fs : List String) (basePath id : String) : List String :=
  expoDeleteUri fs basePath id ++ [basePath ++ id]

/-! ## Concrete instances used by counterexamples and witnesses -/

/-- A data URI whose payload is the single byte 0. -/
def uriOneByte : String := "data:text/plain;base64,AA=="

/-- A data URI whose payload is the two bytes 0, 0. -/
def uriTwoBytes : String := "data:text/plain;base64,AAA="

/-- A digest oracle returning a fixed string. -/
def hashConst : List Nat → String := fun _ => "h"

/-- HTTP oracle where every PUT succeeds and every GET returns the single
byte 0 with content-type `text/plain`. -/
def worldOk : HttpWorld :=
  { put := fun _ _ _ => Except.ok ()
    get := fun _ => Except.ok ([0], "text/plain") }

/-- HTTP oracle where every PUT fails with a network error. -/
def worldPutFails : HttpWorld :=
  { put := fun _ _ _ => Except.error HttpErr.network
    get := fun _ => Except.ok ([0], "text/plain") }

/-- HTTP oracle where every GET yields HTTP 404. -/
def world404 : HttpWorld :=
  { put := fun _ _ _ => Except.ok ()
    get := fun _ => Except.error (HttpErr.status 404) }

/-- HTTP oracle where every GET returns the byte 1 (different from what
gets uploaded in the C1 witness). -/
def worldWrongBody : HttpWorld :=
  { put := fun _ _ _ => Except.ok ()
    get := fun _ => Except.ok ([1], "text/plain") }

/-- Trivial image oracle: every image is 1000 px wide and resizes to the
one-byte JPEG data URI. -/
def imgOps1000 : ImageOps :=
  { width := fun _ => 1000
    height := fun _ => 1000
    resized := fun _ => "data:image/jpeg;base64,AA=="
    readFileAsDataUri := fun s => s }

/-- Remote collaborator that applies the metadata verbatim and keeps the
previous URLs. -/
def remoteKeepUrls : FileRecord → SetPayload → FileRecord :=
  fun f p => { id := f.id, size := p.size, mime := p.mime, sha256 := p.sha256,
               getUrl := f.getUrl, putUrl := f.putUrl }

/-- Environment with the all-ok HTTP oracle. -/
def envOk : SyncEnv :=
  { world := worldOk, sha256Hex := hashConst, img := imgOps1000, remoteApply := remoteKeepUrls }

/-- Environment whose PUTs fail. -/
def envPutFails : SyncEnv :=
  { world := worldPutFails, sha256Hex := hashConst, img := imgOps1000,
    remoteApply := remoteKeepUrls }

/-- Environment whose GETs 404. -/
def env404 : SyncEnv :=
  { world := world404, sha256Hex := hashConst, img := imgOps1000, remoteApply := remoteKeepUrls }

/-- A remote record matching the one-byte blob (`sha256` field `"h"` =
`hashConst` of anything). -/
def fileRecOneByte : FileRecord :=
  { id := "id1", size := some 1, mime := some "text/plain", sha256 := some "h",
    getUrl := Tri.val "https:g", putUrl := Tri.val "https:p" }

/-- A remote record whose stored `sha256` (`"x"`) differs from the blob's
actual digest under `hashConst` (`"h"`). -/
def fileRecWrongSha : FileRecord :=
  { id := "id1", size := some 1, mime := some "text/plain", sha256 := some "x",
    getUrl := Tri.val "https:g", putUrl := Tri.val "https:p" }

/-- Local meta holding the one-byte blob. -/
def metaOneByte : LocalMetaObj :=
  { id := some "id1", size := some 1, mime := some "text/plain", sha256 := some "h",
    uri := some uriOneByte }

/-- Coordinator state ready to upload the one-byte blob. -/
def stReadyOneByte : SysState :=
  { coord := { localMeta := Tri.val metaOneByte, uploaded := false, isUploading := false },
    file := some fileRecOneByte,
    pendingUploads := [], pendingFetches := [], lastSetPayload := none }

/-- Same state but with the mismatching stored `sha256`. -/
def stReadyWrongSha : SysState :=
  { coord := { localMeta := Tri.val metaOneByte, uploaded := false, isUploading := false },
    file := some fileRecWrongSha,
    pendingUploads := [], pendingFetches := [], lastSetPayload := none }

/-- State with one upload promise in flight for the one-byte blob. -/
def stUploadingOneByte : SysState :=
  { coord := { localMeta := Tri.val metaOneByte, uploaded := false, isUploading := true }
    file := some fileRecOneByte
    pendingUploads := [{ putUrl := "https:p", uri := uriOneByte, size := 1, mime := "text/plain", hash := "h", getUrl := "https:g" }]
    pendingFetches := []
    lastSetPayload := none }

/-- Unresolved state (fresh mount) with a fetchable remote record. -/
def stUnresolved : SysState :=
  { coord := { localMeta := Tri.undef, uploaded := true, isUploading := false },
    file := some fileRecOneByte,
    pendingUploads := [], pendingFetches := [], lastSetPayload := none }

/-! # Theorems -/

/-! ## Base64 round-trip -/

theorem b64val_b64char : ∀ s, s < 64 → b64val (b64char s) = s := by decide

theorem b64char_ne_pad : ∀ s, s < 64 → b64char s ≠ '=' := by decide

theorem decodeB64_encodeB64 :
    ∀ B : List Nat, (∀ b ∈ B, b < 256) → decodeB64 (encodeB64 B) = B := by
  intro B
  induction B using encodeB64.induct with
  | case1 =>
    intro _
    rfl
  | case2 a =>
    intro hB
    have ha : a < 256 := hB a (by simp)
    have h1 : a / 4 < 64 := by omega
    have h2 : a % 4 * 16 < 64 := by omega
    simp [encodeB64, decodeB64, b64val_b64char _ h1, b64val_b64char _ h2]
    all_goals omega
  | case3 a b =>
    intro hB
    have ha : a < 256 := hB a (by simp)
    have hb : b < 256 := hB b (by simp)
    have h1 : a / 4 < 64 := by omega
    have h2 : a % 4 * 16 + b / 16 < 64 := by omega
    have h3 : b % 16 * 4 < 64 := by omega
    simp [encodeB64, decodeB64, if_neg (b64char_ne_pad _ h3),
      b64val_b64char _ h1, b64val_b64char _ h2, b64val_b64char _ h3]
    all_goals omega
  | case4 a b c rest ih =>
    intro hB
    have ha : a < 256 := hB a (by simp)
    have hb : b < 256 := hB b (by simp)
    have hc : c < 256 := hB c (by simp)
    have hrest : ∀ x ∈ rest, x < 256 := fun x hx => hB x (by simp [hx])
    have h1 : a / 4 < 64 := by omega
    have h2 : a % 4 * 16 + b / 16 < 64 := by omega
    have h3 : b % 16 * 4 + c / 64 < 64 := by omega
    have h4 : c % 64 < 64 := by omega
    simp only [encodeB64, decodeB64, if_neg (b64char_ne_pad _ h3), if_neg (b64char_ne_pad _ h4),
      b64val_b64char _ h1, b64val_b64char _ h2, b64val_b64char _ h3, b64val_b64char _ h4]
    have e1 : a / 4 * 4 + (a % 4 * 16 + b / 16) / 16 = a := by omega
    have e2 : (a % 4 * 16 + b / 16) % 16 * 16 + (b % 16 * 4 + c / 64) / 4 = b := by omega
    have e3 : (b % 16 * 4 + c / 64) % 4 * 64 + c % 64 = c := by omega
    simp [e1, e2, e3, ih hrest]

/-- Claim C8: for every byte payload `B`, hashing `B` gives the same digest
string as hashing the result of decoding the base64 encoding of `B` — the
local blob encoding round trip is lossless (for any digest function `h`,
in particular SHA-256). -/
theorem hash_base64_roundtrip_C8 (h : List Nat → String) (B : List Nat)
    (hB : ∀ b ∈ B, b < 256) :
    h (getBufferFromBase64 (getBase64FromBuffer B)) = h B := by
  have : getBufferFromBase64 (getBase64FromBuffer B) = B := by
    show decodeB64 (String.mk (encodeB64 B)).toList = B
    have : (String.mk (encodeB64 B)).toList = encodeB64 B := rfl
    rw [this, decodeB64_encodeB64 B hB]
  rw [this]

/-- Witness for C8 at a concrete payload and digest function. -/
theorem hash_base64_roundtrip_C8_witness :
    (fun l : List Nat => toString (l.foldl (fun x y => x + y) 0))
        (getBufferFromBase64 (getBase64FromBuffer [0, 255, 100, 7])) =
      (fun l : List Nat => toString (l.foldl (fun x y => x + y) 0)) [0, 255, 100, 7] :=
  hash_base64_roundtrip_C8 (fun l : List Nat => toString (l.foldl (fun x y => x + y) 0))
    [0, 255, 100, 7] (by decide)

/-! ## Helper lemmas about the render step -/

theorem startFetch_pendingUploads (st : SysState) :
    (startFetch st).pendingUploads = st.pendingUploads := by
  unfold startFetch
  split
  · split <;> rfl
  · rfl

theorem renderResolve_pendingUploads (st : SysState) :
    (renderResolve st).pendingUploads = st.pendingUploads := by
  unfold renderResolve
  split
  · exact startFetch_pendingUploads st
  · rfl

theorem renderStep_pendingUploads (st : SysState) :
    (renderStep st).pendingUploads =
      (if uploadGuard st then startUpload st else st).pendingUploads := by
  unfold renderStep
  exact renderResolve_pendingUploads _

/-! ## Claim C10 -/

/-- Claim C10: whenever the remote record's `getUrl` is exactly `null` (as
opposed to `undefined`), the content reference returned by `useFileUri` is
`null`, regardless of any locally resolved or stored content. -/
theorem getUrl_null_returns_null_C10 (f : FileRecord) (lm : Tri LocalMetaObj)
    (hg : f.getUrl = Tri.null) : returnedUri (some f) lm = Tri.null := by
  simp [returnedUri, hg]

/-- Witness for C10 at a concrete record and local meta. -/
theorem getUrl_null_returns_null_C10_witness :
    returnedUri (some { fileRecOneByte with getUrl := Tri.null }) (Tri.val metaOneByte) =
      Tri.null :=
  getUrl_null_returns_null_C10 { fileRecOneByte with getUrl := Tri.null }
    (Tri.val metaOneByte) rfl

/-! ## Claim C9 -/

theorem lookup_none_filter (l : List (String × String)) (id : String)
    (h : l.lookup id = none) : l.filter (fun p => p.1 != id) = l := by
  induction l with
  | nil => rfl
  | cons p t ih =>
    obtain ⟨k, v⟩ := p
    rw [List.lookup] at h
    cases hk : id == k with
    | true =>
      rw [hk] at h
      exact Option.noConfusion h
    | false =>
      rw [hk] at h
      have hne : k ≠ id := by
        intro e
        subst e
        simp at hk
      simp [List.filter_cons, hne, ih h]

theorem filter_self_idem {α : Type} (p : α → Bool) (l : List α) :
    (l.filter p).filter p = l.filter p := by
  induction l with
  | nil => rfl
  | cons a t ih => cases hp : p a <;> simp [List.filter_cons, hp, ih]

theorem not_mem_filter_ne (l : List String) (x : String) (h : x ∉ l) :
    l.filter (fun p => p != x) = l := by
  induction l with
  | nil => rfl
  | cons a t ih =>
    have hax : a ≠ x := fun e => h (e ▸ List.mem_cons_self a t)
    have ht : x ∉ t := fun m => h (List.mem_cons_of_mem a m)
    simp [List.filter_cons, hax, ih ht]

/-- Claim C9: for both local storage backends, reading a blob by an id with
no stored entry returns `null` rather than raising, and deleting by id is
idempotent — deleting an absent id succeeds and leaves the store
unchanged. -/
theorem storage_missing_and_idempotent_C9 (store : List (String × String)) (id : String)
    (fs : List String) (base fid : String) :
    (store.lookup id = none → idbGetUri store id = none ∧ idbDeleteUri store id = store) ∧
    idbDeleteUri (idbDeleteUri store id) id = idbDeleteUri store id ∧
    ((base ++ fid) ∉ fs → expoGetUri fs base fid = none ∧ expoDeleteUri fs base fid = fs) ∧
    expoDeleteUri (expoDeleteUri fs base fid) base fid = expoDeleteUri fs base fid := by
  refine ⟨?_, ?_, ?_, ?_⟩
  · intro h
    constructor
    · unfold idbGetUri
      rw [h]
    · exact lookup_none_filter store id h
  · exact filter_self_idem _ store
  · intro h
    constructor
    · unfold expoGetUri
      have : fs.contains (base ++ fid) = false := by
        simpa using h
      rw [this]
      simp
    · exact not_mem_filter_ne fs (base ++ fid) h
  · exact filter_self_idem _ fs

/-- Witness for C9 at concrete stores. -/
theorem storage_missing_and_idempotent_C9_witness :
    (idbGetUri [("a", "va")] "b" = none ∧ idbDeleteUri [("a", "va")] "b" = [("a", "va")]) ∧
    (expoGetUri ["d/x"] "d/" "y" = none ∧ expoDeleteUri ["d/" ] "d/" "y" = ["d/"]) := by
  constructor
  · exact (storage_missing_and_idempotent_C9 [("a", "va")] "b" ["d/x"] "d/" "y").1 (by decide)
  · exact (storage_missing_and_idempotent_C9 [("a", "va")] "b" ["d/"] "d/" "y").2.2.1 (by decide)

/-! ## Claim C7 -/

/-- Claim C7: `set(null)` clears the local content reference, nulls the
remote metadata (`mime`, `sha256`, `size`), marks the state synced
(`uploaded = true`, `isUploading = false`), and no upload is started by a
subsequent render. -/
theorem set_null_clears_C7 (env : SyncEnv) (st : SysState) (f : FileRecord) (m : String)
    (hf : st.file = some f) :
    (setCallStep env st none m).coord.localMeta = Tri.null ∧
    (setCallStep env st none m).coord.uploaded = true ∧
    (setCallStep env st none m).coord.isUploading = false ∧
    (setCallStep env st none m).lastSetPayload =
      some { id := f.id, mime := none, sha256 := none, size := none } ∧
    (setCallStep env st none m).file =
      some (env.remoteApply f { id := f.id, mime := none, sha256 := none, size := none }) ∧
    (renderStep (setCallStep env st none m)).pendingUploads =
      (setCallStep env st none m).pendingUploads := by
  have hstep : setCallStep env st none m =
      { st with
        coord := { localMeta := Tri.null, uploaded := true, isUploading := false }
        file := some (env.remoteApply f { id := f.id, mime := none, sha256 := none, size := none })
        lastSetPayload := some { id := f.id, mime := none, sha256 := none, size := none } } := by
    simp [setCallStep, hf]
  rw [hstep]
  refine ⟨rfl, rfl, rfl, rfl, rfl, ?_⟩
  rw [renderStep_pendingUploads]
  have hguard : uploadGuard
      { st with
        coord := { localMeta := Tri.null, uploaded := true, isUploading := false }
        file := some (env.remoteApply f { id := f.id, mime := none, sha256 := none, size := none })
        lastSetPayload := some { id := f.id, mime := none, sha256 := none, size := none } } =
      false := by
    simp [uploadGuard, metaUri, triTruthy]
  rw [hguard]
  simp

/-- Witness for C7 at a concrete environment and state. -/
theorem set_null_clears_C7_witness :
    (setCallStep envOk stReadyOneByte none "text/plain").coord.localMeta = Tri.null ∧
    (setCallStep envOk stReadyOneByte none "text/plain").coord.uploaded = true ∧
    (setCallStep envOk stReadyOneByte none "text/plain").coord.isUploading = false ∧
    (setCallStep envOk stReadyOneByte none "text/plain").lastSetPayload =
      some { id := fileRecOneByte.id, mime := none, sha256 := none, size := none } ∧
    (setCallStep envOk stReadyOneByte none "text/plain").file =
      some (envOk.remoteApply fileRecOneByte
        { id := fileRecOneByte.id, mime := none, sha256 := none, size := none }) ∧
    (renderStep (setCallStep envOk stReadyOneByte none "text/plain")).pendingUploads =
      (setCallStep envOk stReadyOneByte none "text/plain").pendingUploads :=
  set_null_clears_C7 envOk stReadyOneByte fileRecOneByte "text/plain" rfl

/-! ## Claim C2 (code bug) -/

/-- Claim C2 is violated by the code: the upload promise chain in
`useFileUri.ts` line 55 has a `.then` but no rejection handler, so when
`uploadFileDataUri` rejects (here: the PUT fails with a network error) the
coordinator is left with `isUploading = true` (and `uploaded = false`)
forever — no later render can retry, contradicting the documented
`isUploading=false` post-state. This theorem evaluates the model at the
failing input. -/
theorem upload_failure_stuck_C2 :
    (runEvents envPutFails stReadyOneByte [Ev.render, Ev.settleUpload]).coord.isUploading
        = true ∧
    (runEvents envPutFails stReadyOneByte [Ev.render, Ev.settleUpload]).coord.uploaded
        = false ∧
    (runEvents envPutFails stReadyOneByte [Ev.render, Ev.settleUpload]).pendingUploads
        = [] := by
  decide

/-! ## Claim C3 (corrected) -/

/-- Counterexample to claim C3 as stated: after a resolve step whose GET
returns HTTP 404, the coordinator's state has `uploaded = false` — it is
marked unsynced, not synced as the claim asserts (the content reference
does resolve to `null`). -/
theorem resolve_404_marks_unsynced_C3_cex :
    metaUri (runEvents env404 stUnresolved [Ev.render, Ev.settleFetch]).coord.localMeta
        = Tri.null ∧
    (runEvents env404 stUnresolved [Ev.render, Ev.settleFetch]).coord.uploaded = false := by
  decide

/-- Claim C3 as amended: when the local content reference is unresolved and
the remote record's `getUrl` and `mime` are set, a GET returning HTTP 404
resolves the local state to absent (`null` content reference) without
raising an error (`fetchFileDataUri` fulfils with `null`), and marks the
state unsynced (`uploaded = false`, from `setUploaded(!!uri)`), which
together with the null reference stops further fetches and uploads. -/
theorem resolve_404_absent_C3 (env : SyncEnv) (st : SysState) (f : FileRecord)
    (gu mm : String)
    (hf : st.file = some f) (hlm : st.coord.localMeta = Tri.undef)
    (hup : st.coord.uploaded = true)
    (hg : f.getUrl = Tri.val gu) (hm : f.mime = some mm)
    (h404 : env.world.get gu = Except.error (HttpErr.status 404))
    (hpf : st.pendingFetches = []) :
    metaUri (runEvents env st [Ev.render, Ev.settleFetch]).coord.localMeta = Tri.null ∧
    (runEvents env st [Ev.render, Ev.settleFetch]).coord.uploaded = false ∧
    fetchFileDataUri env.world gu none = Except.ok none := by
  have hfetch : fetchFileDataUri env.world gu none = Except.ok none := by
    unfold fetchFileDataUri
    rw [h404]
  have hguard : uploadGuard st = false := by
    simp [uploadGuard, hlm, metaUri, triTruthy]
  have hrender : renderStep st = { st with pendingFetches := st.pendingFetches ++ [⟨gu, f⟩] } := by
    unfold renderStep
    rw [hguard]
    unfold renderResolve
    simp only [if_false, Bool.false_eq_true, ite_false]
    simp [hlm, metaUri, Tri.isUndef, hf, hup, startFetch, hg, hm]
  have hrun : runEvents env st [Ev.render, Ev.settleFetch] =
      settleFetchStep env (renderStep st) := rfl
  rw [hrun, hrender, hpf]
  unfold settleFetchStep
  simp [hfetch, optTruthy, metaUri]

/-- Witness for the amended C3 at a concrete environment and state. -/
theorem resolve_404_absent_C3_witness :
    metaUri (runEvents env404 stUnresolved [Ev.render, Ev.settleFetch]).coord.localMeta
        = Tri.null ∧
    (runEvents env404 stUnresolved [Ev.render, Ev.settleFetch]).coord.uploaded = false ∧
    fetchFileDataUri env404.world "https:g" none = Except.ok none :=
  resolve_404_absent_C3 env404 stUnresolved fileRecOneByte "https:g" "text/plain"
    rfl rfl rfl rfl rfl rfl rfl

/-! ## Claim C5 (corrected): counterexample -/

/-- Counterexample to claim C5 as stated: in `stReadyWrongSha` the remote
record's `sha256` (`"x"`) differs from the local blob's actual digest
(`hashConst` of anything is `"h"`), so the claim's condition is false, yet
the render initiates an upload — the gate checks `sha256` only for
non-nullness, never against the blob's hash. -/
theorem upload_gate_sha_unchecked_C5_cex :
    (renderStep stReadyWrongSha).pendingUploads.length = 1 ∧
    specUploadCondC5 hashConst stReadyWrongSha = false := by
  decide


/-! ## Claim C6 -/

theorem getDocFromUri_ok (h : List Nat → String) (uri : String) (doc : Doc)
    (hd : getDocFromUri h uri = Except.ok doc) :
    doc.size = (getBufferFromUri uri).length ∧ doc.sha256 = h (getBufferFromUri uri) ∧
    doc.mime = getMimeFromUri uri ∧ doc.data = getDataFromUri uri := by
  simp only [getDocFromUri] at hd
  split at hd
  · injection hd with h'
    subst h'
    exact ⟨rfl, rfl, rfl, rfl⟩
  · exact Except.noConfusion hd

/-- Claim C6: `set(uri, mime)` with an image mime whose decoded width
exceeds the configured maximum (800) stores the resized, quality-reduced
re-encoded version (`env.img.resized u`, converted to a data URI) instead
of the original bytes; the stored metadata (`size`, `sha256`) is computed
from the post-compression bytes; the same values are pushed to the remote
record; and the state is marked not uploaded. -/
theorem image_compression_on_set_C6 (env : SyncEnv) (st : SysState) (f : FileRecord)
    (u m : String) (doc : Doc)
    (hf : st.file = some f)
    (him : jsStartsWith m "image/" = true)
    (hwide : 800 < env.img.width u)
    (hdoc : getDocFromUri env.sha256Hex
        (convertFilePathToDataUri env.img (env.img.resized u)) = Except.ok doc) :
    (setCallStep env st (some u) m).coord.localMeta = Tri.val
      { id := some f.id, size := some doc.size, mime := some m, sha256 := some doc.sha256,
        uri := some (convertFilePathToDataUri env.img (env.img.resized u)) } ∧
    (setCallStep env st (some u) m).coord.uploaded = false ∧
    (setCallStep env st (some u) m).lastSetPayload =
      some { id := f.id, mime := some m, sha256 := some doc.sha256, size := some doc.size } ∧
    (setCallStep env st (some u) m).file =
      some (env.remoteApply f
        { id := f.id, mime := some m, sha256 := some doc.sha256, size := some doc.size }) ∧
    doc.size = (getBufferFromUri (convertFilePathToDataUri env.img (env.img.resized u))).length ∧
    doc.sha256 =
      env.sha256Hex (getBufferFromUri (convertFilePathToDataUri env.img (env.img.resized u))) := by
  have hcomp : compressImage env.img u (some 800) none = env.img.resized u := by
    unfold compressImage
    simp [hwide]
  have hdocs := getDocFromUri_ok env.sha256Hex _ doc hdoc
  have hstep : setCallStep env st (some u) m =
      { st with
        coord := ⟨Tri.val { id := some f.id, size := some doc.size, mime := some m, sha256 := some doc.sha256, uri := some (convertFilePathToDataUri env.img (env.img.resized u)) }, false, false⟩
        file := some (env.remoteApply f
          { id := f.id, mime := some m, sha256 := some doc.sha256, size := some doc.size })
        lastSetPayload :=
          some { id := f.id, mime := some m, sha256 := some doc.sha256, size := some doc.size } }
      := by
    simp only [setCallStep, hf, him, if_true, hcomp, hdoc]
  rw [hstep]
  exact ⟨rfl, rfl, rfl, rfl, hdocs.1, hdocs.2.1⟩

/-- Witness for C6 at a concrete oversized image. -/
theorem image_compression_on_set_C6_witness :
    (setCallStep envOk stReadyOneByte (some "u0") "image/png").coord.localMeta = Tri.val
      { id := some fileRecOneByte.id
        size := some 1
        mime := some "image/png"
        sha256 := some "h"
        uri := some (convertFilePathToDataUri envOk.img (envOk.img.resized "u0")) } ∧
    (setCallStep envOk stReadyOneByte (some "u0") "image/png").coord.uploaded = false ∧
    (setCallStep envOk stReadyOneByte (some "u0") "image/png").lastSetPayload =
      some { id := fileRecOneByte.id
             mime := some "image/png"
             sha256 := some "h"
             size := some 1 } ∧
    (setCallStep envOk stReadyOneByte (some "u0") "image/png").file =
      some (envOk.remoteApply fileRecOneByte
        { id := fileRecOneByte.id
          mime := some "image/png"
          sha256 := some "h"
          size := some 1 }) ∧
    (1 : Nat) =
      (getBufferFromUri (convertFilePathToDataUri envOk.img (envOk.img.resized "u0"))).length ∧
    "h" = envOk.sha256Hex
      (getBufferFromUri (convertFilePathToDataUri envOk.img (envOk.img.resized "u0"))) :=
  image_compression_on_set_C6 envOk stReadyOneByte fileRecOneByte "u0" "image/png"
    { data := "AA==", size := 1, mime := "image/jpeg", sha256 := "h" }
    rfl (by decide) (by decide) (by decide)

/-! ## Claim C5 (corrected): amended theorem -/

theorem append_ne (l : List UploadReq) (r : UploadReq) : l ++ [r] ≠ l := by
  intro h
  have hlen := congrArg List.length h
  simp at hlen

theorem uploadInnerCond_iff (f : FileRecord) (u : String) :
    uploadInnerCond f u = true ↔
      (∃ pu, f.putUrl = Tri.val pu) ∧ (∃ gu, f.getUrl = Tri.val gu) ∧
      (∃ sh, f.sha256 = some sh) ∧
      f.mime = some (getMimeFromUri u) ∧ f.size = some (getSizeFromUri u) := by
  unfold uploadInnerCond
  constructor
  · intro h
    simp only [Bool.and_eq_true, beq_iff_eq] at h
    obtain ⟨⟨⟨⟨⟨⟨hpu, hm⟩, hsz⟩, hsh⟩, hgu⟩, hmeq⟩, hszeq⟩ := h
    refine ⟨?_, ?_, ?_, hmeq, hszeq⟩
    · cases hp : f.putUrl with
      | val pu => exact ⟨pu, rfl⟩
      | undef => rw [hp] at hpu; exact Bool.noConfusion hpu
      | null => rw [hp] at hpu; exact Bool.noConfusion hpu
    · cases hg : f.getUrl with
      | val gu => exact ⟨gu, rfl⟩
      | undef => rw [hg] at hgu; exact Bool.noConfusion hgu
      | null => rw [hg] at hgu; exact Bool.noConfusion hgu
    · cases hs : f.sha256 with
      | some sh => exact ⟨sh, rfl⟩
      | none => rw [hs] at hsh; exact Bool.noConfusion hsh
  · rintro ⟨⟨pu, hpu⟩, ⟨gu, hgu⟩, ⟨sh, hsh⟩, hm, hsz⟩
    simp [hpu, hgu, hsh, hm, hsz, Tri.looseNonNull]

theorem startUpload_push_iff (st : SysState) :
    (startUpload st).pendingUploads ≠ st.pendingUploads ↔
      ∃ f u, st.file = some f ∧ metaUri st.coord.localMeta = Tri.val u ∧
        uploadInnerCond f u = true := by
  unfold startUpload
  split
  next f u heq1 heq2 =>
    by_cases hcond : uploadInnerCond f u = true
    · rw [if_pos hcond]
      constructor
      · intro _
        exact ⟨f, u, heq1, heq2, hcond⟩
      · intro _
        exact append_ne _ _
    · rw [if_neg hcond]
      constructor
      · intro hne
        exact absurd rfl hne
      · rintro ⟨f', u', hf', hu', hcond'⟩
        rw [heq1] at hf'
        injection hf' with hf2
        rw [heq2] at hu'
        injection hu' with hu2
        subst hf2
        subst hu2
        exact absurd hcond' hcond
  next hno =>
    constructor
    · intro hne
      exact absurd rfl hne
    · rintro ⟨f, u, hf, hu, _⟩
      exact (hno f u hf hu).elim

/-- Claim C5 as amended: a render initiates an upload exactly when local
content exists (truthy `localMeta?.uri`), the state is unsynced, no upload
is already in flight, and the remote record has non-null `putUrl`,
`getUrl`, `mime`, `size` and `sha256` with `mime` and `size` strictly equal
to the values recomputed from the local blob. The stored `sha256` is only
required to be non-null — it is NOT compared against the blob's actual
digest at initiation time (that comparison happens inside the upload
itself, as an integrity assertion); the claim's omitted `getUrl != null`
conjunct is also required. -/
theorem upload_gate_C5 (st : SysState) :
    ((renderStep st).pendingUploads ≠ st.pendingUploads) ↔
      (∃ f u, st.file = some f ∧ metaUri st.coord.localMeta = Tri.val u ∧ u ≠ "" ∧
        st.coord.uploaded = false ∧ st.coord.isUploading = false ∧
        (∃ pu, f.putUrl = Tri.val pu) ∧ (∃ gu, f.getUrl = Tri.val gu) ∧
        (∃ sh, f.sha256 = some sh) ∧
        f.mime = some (getMimeFromUri u) ∧ f.size = some (getSizeFromUri u)) := by
  rw [ne_eq, renderStep_pendingUploads]
  by_cases hg : uploadGuard st = true
  · rw [if_pos hg]
    rw [← ne_eq, startUpload_push_iff]
    have hg' := hg
    simp only [uploadGuard, Bool.and_eq_true, Bool.not_eq_true'] at hg'
    obtain ⟨⟨⟨htr, hfs⟩, hup⟩, hisup⟩ := hg'
    constructor
    · rintro ⟨f, u, hfile, hmu, hcond⟩
      obtain ⟨⟨pu, hpu⟩, ⟨gu, hgu⟩, ⟨sh, hsh⟩, hm, hsz⟩ := (uploadInnerCond_iff f u).mp hcond
      have hune : u ≠ "" := by
        rw [hmu] at htr
        simpa [triTruthy] using htr
      exact ⟨f, u, hfile, hmu, hune, hup, hisup, ⟨pu, hpu⟩, ⟨gu, hgu⟩, ⟨sh, hsh⟩, hm, hsz⟩
    · rintro ⟨f, u, hfile, hmu, hune, hup2, hisup2, hpu, hgu, hsh, hm, hsz⟩
      exact ⟨f, u, hfile, hmu, (uploadInnerCond_iff f u).mpr ⟨hpu, hgu, hsh, hm, hsz⟩⟩
  · rw [if_neg hg]
    constructor
    · intro hne
      exact absurd rfl hne
    · rintro ⟨f, u, hfile, hmu, hune, hup, hisup, _, _, _, _, _⟩
      exfalso
      apply hg
      simp [uploadGuard, hfile, hmu, triTruthy, hup, hisup, hune]

/-! ## Claim C1 -/

theorem fetchFileDataUri_ok_some (w : HttpWorld) (g : String) (pb : List Nat) (u : String)
    (hf : fetchFileDataUri w g (some pb) = Except.ok (some u)) :
    ∃ body ct, w.get g = Except.ok (body, ct) ∧ body = pb := by
  simp only [fetchFileDataUri] at hf
  split at hf
  next e heq =>
    split at hf
    next => exact Option.noConfusion (Except.ok.inj hf)
    next => exact Except.noConfusion hf
  next body ct heq =>
    split at hf
    next hmatch =>
      split at hf
      next hdec =>
        refine ⟨body, ct, heq, ?_⟩
        have hb : (pb == body) = true := hmatch
        exact (eq_of_beq hb).symm
      next => exact Except.noConfusion hf
    next => exact Except.noConfusion hf

/-- Claim C1: for every upload performed by `uploadFileDataUri(putUrl, uri,
size, mime, hash, getUrl)` that returns normally: the bytes decoded from
`uri` were PUT to `putUrl` with `Content-Type` equal to the mime of `uri`
(which equals `mime`); `getUrl` was fetched and its content verified
byte-for-byte against what was sent, with byte length equal to `size`, mime
equal to `mime`, and digest equal to `hash`; conversely a fetched body
differing from the sent bytes makes the call reject rather than return; and
the coordinator marks `uploaded = true` at an upload settlement only when
the settling `uploadFileDataUri` promise fulfilled. -/
theorem upload_put_and_verify_C1 (h : List Nat → String) (w : HttpWorld)
    (putUrl uri : String) (size : Nat) (mime hash getUrl : String) :
    (uploadFileDataUri h w putUrl uri size mime hash getUrl = Except.ok () →
      w.put putUrl (getBufferFromUri uri) (getMimeFromUri uri) = Except.ok () ∧
      getMimeFromUri uri = mime ∧
      (getBufferFromUri uri).length = size ∧
      h (getBufferFromUri uri) = hash ∧
      (∃ body ct, w.get getUrl = Except.ok (body, ct) ∧ body = getBufferFromUri uri) ∧
      (∃ getUri, fetchFileDataUri w getUrl (some (getBufferFromUri uri)) =
          Except.ok (some getUri) ∧
        (getBufferFromUri getUri).length = size ∧ getMimeFromUri getUri = mime ∧
        h (getBufferFromUri getUri) = hash)) ∧
    (∀ body ct, w.get getUrl = Except.ok (body, ct) → body ≠ getBufferFromUri uri →
      uploadFileDataUri h w putUrl uri size mime hash getUrl ≠ Except.ok ()) ∧
    (∀ (env : SyncEnv) (st : SysState), st.coord.uploaded = false →
      (applyEv env st Ev.settleUpload).coord.uploaded = true →
      ∃ req rest, st.pendingUploads = req :: rest ∧
        uploadFileDataUri env.sha256Hex env.world req.putUrl req.uri req.size req.mime
          req.hash req.getUrl = Except.ok ()) := by
  have main : uploadFileDataUri h w putUrl uri size mime hash getUrl = Except.ok () →
      w.put putUrl (getBufferFromUri uri) (getMimeFromUri uri) = Except.ok () ∧
      getMimeFromUri uri = mime ∧
      (getBufferFromUri uri).length = size ∧
      h (getBufferFromUri uri) = hash ∧
      (∃ body ct, w.get getUrl = Except.ok (body, ct) ∧ body = getBufferFromUri uri) ∧
      (∃ getUri, fetchFileDataUri w getUrl (some (getBufferFromUri uri)) =
          Except.ok (some getUri) ∧
        (getBufferFromUri getUri).length = size ∧ getMimeFromUri getUri = mime ∧
        h (getBufferFromUri getUri) = hash) := by
    intro hok
    simp only [uploadFileDataUri] at hok
    split at hok
    · next h1 =>
      split at hok
      · next h2 =>
        split at hok
        · next h3 =>
          split at hok
          · exact Except.noConfusion hok
          · next r heqput =>
            split at hok
            · exact Except.noConfusion hok
            · exact Except.noConfusion hok
            · next getUri heqf =>
              split at hok
              · next h4 =>
                split at hok
                · next h5 =>
                  split at hok
                  · next h6 =>
                    obtain ⟨body, ct, hw, hbody⟩ :=
                      fetchFileDataUri_ok_some w getUrl _ getUri heqf
                    exact ⟨heqput, h2, h1, h3, ⟨body, ct, hw, hbody⟩,
                      ⟨getUri, heqf, h4, h5, h6⟩⟩
                  · exact Except.noConfusion hok
                · exact Except.noConfusion hok
              · exact Except.noConfusion hok
        · exact Except.noConfusion hok
      · exact Except.noConfusion hok
    · exact Except.noConfusion hok
  refine ⟨main, ?_, ?_⟩
  · intro body ct hw hne hok
    obtain ⟨_, _, _, _, ⟨body', ct', hw', hbody'⟩, _⟩ := main hok
    rw [hw] at hw'
    injection hw' with hpair
    injection hpair with hb hc
    exact hne (hb.trans hbody')
  · intro env st hup0 hup1
    have hup2 : (settleUploadStep env st).coord.uploaded = true := hup1
    simp only [settleUploadStep] at hup2
    split at hup2
    · next heq =>
      rw [hup0] at hup2
      exact Bool.noConfusion hup2
    · next req rest heq =>
      split at hup2
      · next val hres =>
        exact ⟨req, rest, heq, hres⟩
      · next e hres =>
        have hceq : st.coord.uploaded = true := hup2
        rw [hup0] at hceq
        exact Bool.noConfusion hceq

/-- Witness for C1: the three parts instantiated at concrete worlds — a
successful round trip through `worldOk`, a refused upload when the fetched
body differs (`worldWrongBody`), and a settlement that flips `uploaded`
only because the upload fulfilled. -/
theorem upload_put_and_verify_C1_witness :
    (worldOk.put "https:p" (getBufferFromUri uriOneByte) (getMimeFromUri uriOneByte) =
        Except.ok () ∧
      getMimeFromUri uriOneByte = "text/plain" ∧
      (getBufferFromUri uriOneByte).length = 1 ∧
      hashConst (getBufferFromUri uriOneByte) = "h" ∧
      (∃ body ct, worldOk.get "https:g" = Except.ok (body, ct) ∧
        body = getBufferFromUri uriOneByte) ∧
      (∃ getUri, fetchFileDataUri worldOk "https:g" (some (getBufferFromUri uriOneByte)) =
          Except.ok (some getUri) ∧
        (getBufferFromUri getUri).length = 1 ∧ getMimeFromUri getUri = "text/plain" ∧
        hashConst (getBufferFromUri getUri) = "h")) ∧
    (uploadFileDataUri hashConst worldWrongBody "https:p" uriOneByte 1 "text/plain" "h"
        "https:g" ≠ Except.ok ()) ∧
    (∃ req rest, stUploadingOneByte.pendingUploads = req :: rest ∧
      uploadFileDataUri envOk.sha256Hex envOk.world req.putUrl req.uri req.size req.mime
        req.hash req.getUrl = Except.ok ()) := by
  refine ⟨?_, ?_, ?_⟩
  · exact (upload_put_and_verify_C1 hashConst worldOk "https:p" uriOneByte 1 "text/plain" "h"
      "https:g").1 (by decide)
  · exact (upload_put_and_verify_C1 hashConst worldWrongBody "https:p" uriOneByte 1 "text/plain"
      "h" "https:g").2.1 [1] "text/plain" (by decide) (by decide)
  · exact (upload_put_and_verify_C1 hashConst worldOk "https:p" uriOneByte 1 "text/plain" "h"
      "https:g").2.2 envOk stUploadingOneByte (by decide) (by decide)

/-! ## Claim C4 (corrected) -/

/-- Counterexample to claim C4 as stated: starting from `stReadyOneByte`,
a render starts an upload; a `set()` call completing while that upload is
in flight resets `isUploading` to `false` (`useFileUri.ts` line 96), so the
next render starts a second upload before the first has settled — two
upload promises are in flight at once. -/
theorem double_upload_after_set_C4_cex :
    (runEvents envOk stReadyOneByte
      [Ev.render, Ev.setCall (some uriTwoBytes) "text/plain", Ev.render]).pendingUploads.length
      = 2 := by
  decide

theorem startUpload_frame (st : SysState) :
    (startUpload st).coord.localMeta = st.coord.localMeta ∧
    (startUpload st).coord.uploaded = st.coord.uploaded ∧
    (startUpload st).file = st.file ∧
    (startUpload st).lastSetPayload = st.lastSetPayload ∧
    (startUpload st).pendingFetches = st.pendingFetches := by
  unfold startUpload
  split
  · split <;> exact ⟨rfl, rfl, rfl, rfl, rfl⟩
  · exact ⟨rfl, rfl, rfl, rfl, rfl⟩

theorem startUpload_result (st : SysState) :
    startUpload st = st ∨
      ∃ r, startUpload st =
        { st with
          coord := { st.coord with isUploading := true }
          pendingUploads := st.pendingUploads ++ [r] } := by
  unfold startUpload
  split
  · split
    · right
      exact ⟨_, rfl⟩
    · left
      rfl
  · left
    rfl

theorem startFetch_frame (st : SysState) :
    (startFetch st).coord.isUploading = st.coord.isUploading ∧
    (startFetch st).pendingUploads = st.pendingUploads ∧
    (startFetch st).file = st.file ∧
    (startFetch st).lastSetPayload = st.lastSetPayload := by
  unfold startFetch
  split
  · split <;> exact ⟨rfl, rfl, rfl, rfl⟩
  · exact ⟨rfl, rfl, rfl, rfl⟩

theorem startFetch_localMeta (st : SysState) :
    (startFetch st).coord.localMeta = st.coord.localMeta ∨
      (startFetch st).coord.localMeta = Tri.null := by
  unfold startFetch
  split
  · split
    · left
      rfl
    · right
      rfl
  · left
    rfl

theorem renderResolve_isUploading (st : SysState) :
    (renderResolve st).coord.isUploading = st.coord.isUploading := by
  unfold renderResolve
  split
  · exact (startFetch_frame st).1
  · rfl

theorem renderStep_localMeta_stable (st : SysState)
    (hne : st.coord.localMeta ≠ Tri.undef) :
    (renderStep st).coord.localMeta = st.coord.localMeta := by
  have key : ∀ s1 : SysState, s1.coord.localMeta = st.coord.localMeta →
      (renderResolve s1).coord.localMeta = st.coord.localMeta := by
    intro s1 h1
    unfold renderResolve
    split
    · next hcond =>
      rcases startFetch_localMeta s1 with h | h
      · rw [h, h1]
      · rw [h]
        have hcond1 : (metaUri s1.coord.localMeta).isUndef = true := by
          simp only [Bool.and_eq_true] at hcond
          exact hcond.1.1
        rw [h1] at hcond1
        cases hlm : st.coord.localMeta with
        | undef => exact absurd hlm hne
        | null => rfl
        | val mobj =>
          rw [hlm] at hcond1
          exfalso
          cases hmo : mobj.uri <;> simp [metaUri, hmo, Tri.isUndef] at hcond1
    · exact h1
  unfold renderStep
  apply key
  split
  · exact (startUpload_frame st).1
  · rfl

theorem renderStep_lastSetPayload (st : SysState) :
    (renderStep st).lastSetPayload = st.lastSetPayload := by
  have key : ∀ s1 : SysState, s1.lastSetPayload = st.lastSetPayload →
      (renderResolve s1).lastSetPayload = st.lastSetPayload := by
    intro s1 h1
    unfold renderResolve
    split
    · rw [(startFetch_frame s1).2.2.2]
      exact h1
    · exact h1
  unfold renderStep
  apply key
  split
  · exact (startUpload_frame st).2.2.2.1
  · rfl

theorem settleUploadStep_frame (env : SyncEnv) (st : SysState) :
    (settleUploadStep env st).coord.localMeta = st.coord.localMeta ∧
    (settleUploadStep env st).lastSetPayload = st.lastSetPayload ∧
    (settleUploadStep env st).file = st.file ∧
    (settleUploadStep env st).pendingFetches = st.pendingFetches := by
  unfold settleUploadStep
  split
  · exact ⟨rfl, rfl, rfl, rfl⟩
  · split <;> exact ⟨rfl, rfl, rfl, rfl⟩

theorem settleFetchStep_uploads (env : SyncEnv) (st : SysState) :
    (settleFetchStep env st).pendingUploads = st.pendingUploads ∧
    (settleFetchStep env st).coord.isUploading = st.coord.isUploading := by
  unfold settleFetchStep
  split
  · exact ⟨rfl, rfl⟩
  · split <;> exact ⟨rfl, rfl⟩

theorem setCallStep_uploads (env : SyncEnv) (st : SysState) (u : Option String) (m : String) :
    (setCallStep env st u m).pendingUploads = st.pendingUploads := by
  unfold setCallStep
  split
  · rfl
  · split
    · rfl
    · dsimp only
      split <;> rfl

theorem stable_step (env : SyncEnv) (st : SysState) (ev : Ev)
    (hs : stableEv ev) (hne : st.coord.localMeta ≠ Tri.undef) :
    (applyEv env st ev).coord.localMeta = st.coord.localMeta ∧
    (applyEv env st ev).lastSetPayload = st.lastSetPayload := by
  cases ev with
  | render => exact ⟨renderStep_localMeta_stable st hne, renderStep_lastSetPayload st⟩
  | settleUpload =>
    exact ⟨(settleUploadStep_frame env st).1, (settleUploadStep_frame env st).2.1⟩
  | settleFetch => exact False.elim hs
  | setCall u m => exact False.elim hs
  | remoteUpdate f => exact ⟨rfl, rfl⟩

theorem stable_run (env : SyncEnv) (evs : List Ev) :
    ∀ st : SysState, (∀ ev ∈ evs, stableEv ev) → st.coord.localMeta ≠ Tri.undef →
      (runEvents env st evs).coord.localMeta = st.coord.localMeta ∧
      (runEvents env st evs).lastSetPayload = st.lastSetPayload := by
  induction evs with
  | nil =>
    intro st _ _
    exact ⟨rfl, rfl⟩
  | cons ev rest ih =>
    intro st hall hne
    have hs := hall ev (List.mem_cons_self _ _)
    have hstep := stable_step env st ev hs hne
    have hne' : (applyEv env st ev).coord.localMeta ≠ Tri.undef := by
      rw [hstep.1]
      exact hne
    have hrest := ih (applyEv env st ev) (fun e he => hall e (List.mem_cons_of_mem _ he)) hne'
    have hrun : runEvents env st (ev :: rest) = runEvents env (applyEv env st ev) rest := rfl
    rw [hrun]
    exact ⟨hrest.1.trans hstep.1, hrest.2.trans hstep.2⟩

theorem inv_step (env : SyncEnv) (st : SysState) (ev : Ev)
    (hinv : uploadsInFlightInv st)
    (hset : ∀ u m, ev = Ev.setCall u m → st.pendingUploads = []) :
    uploadsInFlightInv (applyEv env st ev) := by
  obtain ⟨hlen, hdisj⟩ := hinv
  cases ev with
  | render =>
    show uploadsInFlightInv (renderStep st)
    have hinv1 : uploadsInFlightInv (if uploadGuard st then startUpload st else st) := by
      by_cases hg : uploadGuard st = true
      · rw [if_pos hg]
        have hisup : st.coord.isUploading = false := by
          simp only [uploadGuard, Bool.and_eq_true, Bool.not_eq_true'] at hg
          exact hg.2
        have hemp : st.pendingUploads = [] := by
          rcases hdisj with hh | hh
          · exact hh
          · rw [hh] at hisup
            exact Bool.noConfusion hisup
        rcases startUpload_result st with he | ⟨r, he⟩
        · rw [he]
          exact ⟨hlen, Or.inl hemp⟩
        · rw [he]
          constructor
          · simp [hemp]
          · right
            rfl
      · rw [if_neg hg]
        exact ⟨hlen, hdisj⟩
    unfold uploadsInFlightInv at hinv1 ⊢
    unfold renderStep
    rw [renderResolve_pendingUploads, renderResolve_isUploading]
    exact hinv1
  | settleUpload =>
    show uploadsInFlightInv (settleUploadStep env st)
    unfold settleUploadStep
    split
    · exact ⟨hlen, hdisj⟩
    · next req rest heq =>
      have hrlen : rest.length = 0 := by
        rw [heq] at hlen
        simp only [List.length_cons] at hlen
        omega
      have hrest : rest = [] := List.eq_nil_of_length_eq_zero hrlen
      split
      · constructor
        · simp [hrest]
        · left
          exact hrest
      · constructor
        · simp [hrest]
        · left
          exact hrest
  | settleFetch =>
    show uploadsInFlightInv (settleFetchStep env st)
    unfold uploadsInFlightInv
    rw [(settleFetchStep_uploads env st).1, (settleFetchStep_uploads env st).2]
    exact ⟨hlen, hdisj⟩
  | setCall u m =>
    have hemp := hset u m rfl
    show uploadsInFlightInv (setCallStep env st u m)
    unfold uploadsInFlightInv
    rw [setCallStep_uploads]
    exact ⟨hlen, Or.inl hemp⟩
  | remoteUpdate f => exact ⟨hlen, hdisj⟩

theorem inv_run (env : SyncEnv) (evs : List Ev) :
    ∀ st : SysState, uploadsInFlightInv st → noSetDuringUpload env st evs →
      uploadsInFlightInv (runEvents env st evs) := by
  induction evs with
  | nil =>
    intro st hi _
    exact hi
  | cons ev rest ih =>
    intro st hinv hns
    obtain ⟨hhead, htail⟩ := hns
    have hset : ∀ u m, ev = Ev.setCall u m → st.pendingUploads = [] := by
      intro u m he
      subst he
      exact hhead
    exact ih _ (inv_step env st ev hinv hset) htail

/-- Claim C4 as amended: (a) at most one upload promise is ever in flight
(and the `isUploading` flag is set while one is), provided every `set()`
call happens while no upload is in flight — a `set()` completing during an
in-flight upload resets `isUploading` and can allow a second concurrent
upload (see the counterexample); (b) after the most recent completed
`set()` call, as long as only renders, upload settlements and remote-record
refreshes follow (no later `set()` and no stale resolve-fetch settlement),
the stored local meta and the last pushed remote metadata remain exactly
those computed from that `set()`'s inputs. -/
theorem upload_serialization_C4 (env : SyncEnv) (st : SysState) :
    (∀ evs : List Ev, uploadsInFlightInv st → noSetDuringUpload env st evs →
      uploadsInFlightInv (runEvents env st evs)) ∧
    (∀ (f : FileRecord) (u : Option String) (m : String) (evs : List Ev),
      st.file = some f → setSucceeds env u m → (∀ ev ∈ evs, stableEv ev) →
      (runEvents env (setCallStep env st u m) evs).coord.localMeta =
          (setCallStep env st u m).coord.localMeta ∧
      (runEvents env (setCallStep env st u m) evs).lastSetPayload =
          (setCallStep env st u m).lastSetPayload) := by
  constructor
  · intro evs hinv hns
    exact inv_run env evs st hinv hns
  · intro f u m evs hf hsucc hall
    have hne : (setCallStep env st u m).coord.localMeta ≠ Tri.undef := by
      cases u with
      | none => simp [setCallStep, hf]
      | some s =>
        obtain ⟨d, hd⟩ := hsucc
        simp [setCallStep, hf, hd]
    exact stable_run env evs (setCallStep env st u m) hall hne

/-- Witness for the amended C4 at a concrete environment, state and
trace. -/
theorem upload_serialization_C4_witness :
    uploadsInFlightInv (runEvents envOk stReadyOneByte [Ev.render]) ∧
    (runEvents envOk (setCallStep envOk stReadyOneByte none "text/plain")
        [Ev.render, Ev.settleUpload]).coord.localMeta =
      (setCallStep envOk stReadyOneByte none "text/plain").coord.localMeta := by
  constructor
  · exact (upload_serialization_C4 envOk stReadyOneByte).1 [Ev.render]
      ⟨by decide, Or.inl rfl⟩ ⟨trivial, trivial⟩
  · exact ((upload_serialization_C4 envOk stReadyOneByte).2 fileRecOneByte none "text/plain"
      [Ev.render, Ev.settleUpload] rfl trivial
      (by
        intro ev he
        simp only [List.mem_cons, List.mem_singleton] at he
        rcases he with rfl | rfl | he
        · trivial
        · trivial
        · cases he)).1
